import Mathlib

/-!
Shallow embedding of the COM foreign-object reference handle layer of the
winsafe repository (src/com/iunknown.rs, src/com/shell/itaskbarlist.rs,
src/com/shell/itaskbarlist2.rs, src/shell/com_interfaces/ienumshellitems.rs),
together with theorems settling the frozen claims about it.

Modelling conventions:
* A raw pointer is a `Nat`; the value `0` is the null sentinel
  (`std::ptr::null()`).
* A virtual table is a list of function-pointer identities (`Nat`), in the
  ABI slot order of the `#[repr(C)]` structs of the source:
  slot 0 `QueryInterface`, slot 1 `AddRef`, slot 2 `Release` for
  `IUnknownVtbl`; `ITaskbarListVtbl` appends slots 3..7
  (`hrInit`, `addTab`, `deleteTab`, `activateTab`, `setActiveAlt`);
  `ITaskbarList2Vtbl` appends slot 8 (`MarkFullscreenWindow`).
* The foreign side is a `World`: a memory mapping each pointer-to-pointer
  value to the virtual table it (doubly) dereferences to, the foreign
  object's reference count, and the identities of the foreign `AddRef` and
  `Release` functions together with a return-code oracle for every other
  foreign function.  Calling the foreign `AddRef` increments the count and
  returns the post-increment value; calling the foreign `Release`
  decrements it and returns the post-decrement value; any other function
  leaves the count alone and returns whatever the oracle says.  This is
  exactly the documented foreign contract the source relies on.
* Every foreign dispatch is recorded as an `Event.call pfun thisArg args`
  in a trace; a dereference of an unmapped pointer (in particular the null
  sentinel, which valid memory never maps) makes the operation fault,
  modelled as `Option.none`, with no event emitted.
-/

/-- Raw pointer values; `0` models the null sentinel. -/
abbrev Ptr := Nat

/-- A virtual table: function-pointer identities in ABI slot order. -/
structure VTable where
  slots : List Nat
deriving DecidableEq, Repr

/-- A foreign dispatch: invocation of the function pointer `pfun` with the
handle's stored pointer as first argument and `args` as the remaining
arguments. -/
inductive Event where
  | call (pfun : Nat) (thisArg : Ptr) (args : List Nat)
deriving DecidableEq, Repr

/-- The foreign side: memory mapping a pointer-to-pointer value to the
virtual table it dereferences to, the foreign object's reference count, the
identities of the foreign acquire/release functions, and a return-code
oracle for all other foreign functions. -/
structure World where
  mem : Ptr → Option VTable
  count : Nat
  addRefFn : Nat
  releaseFn : Nat
  ret : Nat → Ptr → List Nat → Nat

/-- Semantics of one foreign function invocation: the documented COM
contract.  `AddRef` returns the post-increment count, `Release` the
post-decrement count; every other function returns the oracle's code and
leaves the count unchanged.  Memory is never changed by a call. -/
def World.invoke (w : World) (pfun : Nat) (thisArg : Ptr) (args : List Nat) :
    World × Nat :=
  if pfun = w.addRefFn then
    ({ w with count := w.count + 1 }, w.count + 1)
  else if pfun = w.releaseFn then
    ({ w with count := w.count - 1 }, w.count - 1)
  else
    (w, w.ret pfun thisArg args)

/-- The slot index of `AddRef` in `IUnknownVtbl` (src/com/iunknown.rs:9). -/
def addRefSlot : Nat := 1

/-- The slot index of `Release` in `IUnknownVtbl` (src/com/iunknown.rs:10). -/
def releaseSlot : Nat := 2

/-- `pub struct IUnknown { vtbl: *const *const IUnknownVtbl }`
(src/com/iunknown.rs:23-25). -/
structure IUnknown where
  vtbl : Ptr
deriving DecidableEq, Repr

/-- `impl From<*const *const IUnknownVtbl> for IUnknown`
(src/com/iunknown.rs:27-32): the body is the bare struct literal
`Self { vtbl: ppv }`. -/
def IUnknown.fromPpv (ppv : Ptr) : IUnknown :=
  { vtbl := ppv }

/-- The `From` construction threaded through the world: the source body
contains no statement besides the struct literal, so the world passes
through untouched and no foreign call event is emitted. -/
def IUnknown.fromPpvTraced (ppv : Ptr) (w : World) :
    IUnknown × World × List Event :=
  (IUnknown.fromPpv ppv, w, [])

/-- `pub unsafe fn ppv<T>(&self) -> *const *const T { self.vtbl as _ }`
(src/com/iunknown.rs:42-44): a pointer cast, value unchanged. -/
def IUnknown.ppv (h : IUnknown) : Ptr :=
  h.vtbl

/-- `IUnknown::AddRef` (src/com/iunknown.rs:48-51):
`let pfun = unsafe { (*(*self.vtbl)).AddRef }; pfun(self.vtbl)`.
The double dereference is a memory lookup of `self.vtbl`; an unmapped
pointer faults (`none`).  The receiver is `&self`, so the handle is
returned unchanged. -/
def IUnknown.AddRef (h : IUnknown) (w : World) :
    Option (IUnknown × Nat × World × List Event) :=
  match w.mem h.vtbl with
  | none => none
  | some vt =>
    match vt.slots[addRefSlot]? with
    | none => none
    | some pfun =>
      let r := w.invoke pfun h.vtbl []
      some (h, r.2, r.1, [Event.call pfun h.vtbl []])

/-- `IUnknown::Release` (src/com/iunknown.rs:62-76): if the stored pointer
is null, return `0` with no foreign call; otherwise dispatch the table's
`Release` slot with the stored pointer, and if the returned post-decrement
count is zero overwrite the stored pointer with the null sentinel.  The
receiver is `&mut self`, so the possibly-updated handle is returned. -/
def IUnknown.Release (h : IUnknown) (w : World) :
    Option (IUnknown × Nat × World × List Event) :=
  if h.vtbl = 0 then
    some (h, 0, w, [])
  else
    match w.mem h.vtbl with
    | none => none
    | some vt =>
      match vt.slots[releaseSlot]? with
      | none => none
      | some ptrFun =>
        let r := w.invoke ptrFun h.vtbl []
        let refCount := r.2
        let h' := if refCount = 0 then { vtbl := 0 : IUnknown } else h
        some (h', refCount, r.1, [Event.call ptrFun h.vtbl []])

/-- `n` successive `Release` calls on the same handle, threading the handle
and the world, collecting the returned counts and the emitted events. -/
def releaseTimes : Nat → IUnknown → World →
    Option (IUnknown × World × List Nat × List Event)
  | 0, h, w => some (h, w, [], [])
  | n + 1, h, w =>
    match h.Release w with
    | none => none
    | some (h', rc, w', evs) =>
      match releaseTimes n h' w' with
      | none => none
      | some (h'', w'', rcs, evs') => some (h'', w'', rc :: rcs, evs ++ evs')

/-- Modelled from the spec: the status-code type `co::ERROR` is not among
the provided source files; per the spec every foreign call returns a 32-bit
status code where zero denotes success, and a typed error carries the
numeric code unchanged.  `fromU32` embeds `co::ERROR::from` (the code is
kept as is) and `S_OK` is the zero success code. -/
structure ERROR where
  code : Nat
deriving DecidableEq, Repr

/-- Modelled from the spec: conversion of a raw status code into `co::ERROR`
keeps the numeric code unchanged. -/
def ERROR.fromU32 (n : Nat) : ERROR :=
  { code := n }

/-- Modelled from the spec: the zero success status code. -/
def ERROR.S_OK : ERROR :=
  { code := 0 }

/-- The slot index of `setActiveAlt` in `ITaskbarListVtbl`
(src/com/shell/itaskbarlist.rs:17-25): three inherited `IUnknownVtbl` slots
followed by `hrInit`, `addTab`, `deleteTab`, `activateTab`, `setActiveAlt`. -/
def setActiveAltSlot : Nat := 7

/-- `pub struct ITaskbarList { pub base: IUnknown }`
(src/com/shell/itaskbarlist.rs:11-15). -/
structure ITaskbarList where
  base : IUnknown
deriving DecidableEq, Repr

/-- `impl From<*const *const ITaskbarListVtbl> for ITaskbarList`
(src/com/shell/itaskbarlist.rs:27-34): wraps the same pointer value in the
base `IUnknown`. -/
def ITaskbarList.fromPpv (ppv : Ptr) : ITaskbarList :=
  { base := IUnknown.fromPpv ppv }

/-- `ITaskbarList::SetActiveAlt` (src/com/shell/itaskbarlist.rs:39-47):
look up the `setActiveAlt` slot of the table the stored pointer
dereferences to, invoke it with the stored pointer and the window handle,
and translate the returned status code: `S_OK` maps to success, any other
code maps to a typed error carrying it.  The receiver is `&self`, so the
handle is returned unchanged. -/
def ITaskbarList.SetActiveAlt (t : ITaskbarList) (w : World) (hwnd : Nat) :
    Option (ITaskbarList × Except ERROR Unit × World × List Event) :=
  let ppv := t.base.ppv
  match w.mem ppv with
  | none => none
  | some vt =>
    match vt.slots[setActiveAltSlot]? with
    | none => none
    | some pfun =>
      let r := w.invoke pfun ppv [hwnd]
      let err := ERROR.fromU32 r.2
      let res : Except ERROR Unit :=
        if err = ERROR.S_OK then Except.ok () else Except.error err
      some (t, res, r.1, [Event.call pfun ppv [hwnd]])

/-- The slot index of `MarkFullscreenWindow` in `ITaskbarList2Vtbl`
(src/com/shell/itaskbarlist2.rs:10-14): the single slot appended right
after the eight inherited `ITaskbarListVtbl` slots. -/
def markFullscreenWindowSlot : Nat := 8

/-- The total number of slots of the base `ITaskbarListVtbl` table. -/
def itaskbarListSlotCount : Nat := 8

/-- `pub struct ITaskbarList2 { pub iTaskbarList: ITaskbarList }`
(src/com/shell/itaskbarlist2.rs:41-45). -/
structure ITaskbarList2 where
  iTaskbarList : ITaskbarList
deriving DecidableEq, Repr

/-- `impl From<PPVtbl> for ITaskbarList2` (src/com/shell/itaskbarlist2.rs:47-54). -/
def ITaskbarList2.fromPpv (ppv : Ptr) : ITaskbarList2 :=
  { iTaskbarList := ITaskbarList.fromPpv ppv }

/-- `fFullscreen as u32` (src/com/shell/itaskbarlist2.rs:66). -/
def boolToU32 (b : Bool) : Nat :=
  if b then 1 else 0

/-- `ITaskbarList2::MarkFullscreenWindow` (src/com/shell/itaskbarlist2.rs:59-72):
look up the `MarkFullscreenWindow` slot of the table the stored pointer
dereferences to, invoke it with the stored pointer, the window handle and
the fullscreen flag, and translate the returned status code exactly as
`SetActiveAlt` does. -/
def ITaskbarList2.MarkFullscreenWindow (t : ITaskbarList2) (w : World)
    (hwnd : Nat) (fFullscreen : Bool) :
    Option (ITaskbarList2 × Except ERROR Unit × World × List Event) :=
  let ppv := t.iTaskbarList.base.ppv
  match w.mem ppv with
  | none => none
  | some vt =>
    match vt.slots[markFullscreenWindowSlot]? with
    | none => none
    | some pfun =>
      let r := w.invoke pfun ppv [hwnd, boolToU32 fFullscreen]
      let err := ERROR.fromU32 r.2
      let res : Except ERROR Unit :=
        if err = ERROR.S_OK then Except.ok () else Except.error err
      some (t, res, r.1, [Event.call pfun ppv [hwnd, boolToU32 fFullscreen]])

/-- The typed operations a program can attempt through a handle; release is
included so that operation sequences cover the whole lifecycle. -/
inductive Op where
  | addRef
  | release
  | setActiveAlt (hwnd : Nat)
  | markFullscreenWindow (hwnd : Nat) (fFullscreen : Bool)
deriving DecidableEq, Repr

/-- One operation applied to the underlying handle state: the typed views
(`ITaskbarList`, `ITaskbarList2`) are wrappers around the same stored
pointer, so each step is expressed over that pointer. -/
def stepOp (op : Op) (h : IUnknown) (w : World) :
    Option (IUnknown × World × List Event) :=
  match op with
  | .addRef =>
    (h.AddRef w).map fun r => (r.1, r.2.2.1, r.2.2.2)
  | .release =>
    (h.Release w).map fun r => (r.1, r.2.2.1, r.2.2.2)
  | .setActiveAlt hwnd =>
    ((ITaskbarList.mk h).SetActiveAlt w hwnd).map fun r =>
      (r.1.base, r.2.2.1, r.2.2.2)
  | .markFullscreenWindow hwnd fFullscreen =>
    ((ITaskbarList2.mk (ITaskbarList.mk h)).MarkFullscreenWindow w hwnd
        fFullscreen).map fun r =>
      (r.1.iTaskbarList.base, r.2.2.1, r.2.2.2)

/-- A sequence of operations threaded through the handle and the world,
collecting every emitted foreign dispatch event. -/
def runOps : List Op → IUnknown → World →
    Option (IUnknown × World × List Event)
  | [], h, w => some (h, w, [])
  | op :: ops, h, w =>
    match stepOp op h w with
    | none => none
    | some (h', w', evs) =>
      match runOps ops h' w' with
      | none => none
      | some (h'', w'', evs') => some (h'', w'', evs ++ evs')

/-- `impl Drop for IUnknown { fn drop(&mut self) { self.Release(); } }`
(src/com/iunknown.rs:34-38): the drop glue is exactly one `Release` call,
with its returned count discarded. -/
def IUnknown.dropGlue (h : IUnknown) (w : World) :
    Option (World × List Event) :=
  (h.Release w).map fun r => (r.2.2.1, r.2.2.2)

/-- Rust scope semantics for an owned `IUnknown` value, which the source
relies on: the handle is constructed from a raw pointer, an arbitrary body
runs — possibly ending in an error — and on scope exit the drop glue runs
once on the final handle, on every exit path. -/
def withHandle {ε α : Type} (ppv : Ptr) (w : World)
    (body : IUnknown → World → Except ε α × IUnknown × World × List Event) :
    Option (Except ε α × World × List Event) :=
  let h := IUnknown.fromPpv ppv
  let r := body h w
  (IUnknown.dropGlue r.2.1 r.2.2.1).map fun d => (r.1, d.1, r.2.2.2 ++ d.2)

/-- Modelled from the spec: `HRESULT::S_FALSE`, the documented no-item-found
sentinel status of enumerator operations (`co::HRESULT` is not among the
provided source files; the COM value of `S_FALSE` is 1). -/
def HRESULT_S_FALSE : Nat := 1

/-- Modelled from the spec: `ok_to_hrresult` (`crate::ole::privs`, not among
the provided source files) translates a raw status code into a result —
zero maps to success, any other code maps to a typed error carrying that
exact code. -/
def ok_to_hrresult (hres : Nat) : Except Nat Unit :=
  if hres = 0 then Except.ok () else Except.error hres

/-- One scripted outcome of a foreign enumerator `Next` call: either an
item pointer, or a failing status code. -/
inductive NextOutcome where
  | item (p : Ptr)
  | fail (code : Nat)
deriving DecidableEq, Repr

/-- Foreign enumerator state: the scripted outcomes of successive foreign
`Next` calls, plus the enumerator object's foreign reference count. -/
structure EnumWorld where
  script : List NextOutcome
  count : Nat
deriving DecidableEq, Repr

/-- Modelled from the spec: the foreign enumerator contract — each foreign
`Next` call either yields an item (zero status, item pointer through the
out parameter), fails with its scripted status code, or reports exhaustion
with the documented no-item-found sentinel once the script is spent (and
keeps doing so on every later call).  The reference count is untouched. -/
def foreignNext : EnumWorld → EnumWorld × Nat × Ptr
  | { script := [], count := c } =>
    ({ script := [], count := c }, HRESULT_S_FALSE, 0)
  | { script := .item p :: rest, count := c } =>
    ({ script := rest, count := c }, 0, p)
  | { script := .fail code :: rest, count := c } =>
    ({ script := rest, count := c }, code, 0)

/-- A foreign dispatch of the enumerator's `Next` slot with the stored
pointer as first argument. -/
inductive EnumEvent where
  | nextCall (thisArg : Ptr)
deriving DecidableEq, Repr

/-- `pub struct IEnumShellItems(ComPtr)`
(src/shell/com_interfaces/ienumshellitems.rs:45). -/
structure IEnumShellItems where
  ptr : Ptr
deriving DecidableEq, Repr

/-- `shell_IEnumShellItems::Next`
(src/shell/com_interfaces/ienumshellitems.rs:90-105): dispatch the foreign
`Next` slot with the stored pointer; a zero status yields the fetched item,
the no-item-found sentinel yields an empty value, any other status is a
typed error carrying the code. -/
def IEnumShellItems.Next (s : IEnumShellItems) (e : EnumWorld) :
    EnumWorld × Except Nat (Option Ptr) × List EnumEvent :=
  let r := foreignNext e
  let res : Except Nat (Option Ptr) :=
    match ok_to_hrresult r.2.1 with
    | .ok _ => .ok (some r.2.2)
    | .error hr => if hr = HRESULT_S_FALSE then .ok none else .error hr
  (r.1, res, [EnumEvent.nextCall s.ptr])

/-- `struct EnumShellItemsIter { array: ManuallyDrop<IEnumShellItems>, .. }`
(src/shell/com_interfaces/ienumshellitems.rs:128-131). -/
structure EnumShellItemsIter where
  array : IEnumShellItems
deriving DecidableEq, Repr

/-- `EnumShellItemsIter::new`
(src/shell/com_interfaces/ienumshellitems.rs:147-153): wraps the raw
pointer (in `ManuallyDrop`) without any foreign call. -/
def EnumShellItemsIter.new (com_ptr : Ptr) : EnumShellItemsIter :=
  { array := { ptr := com_ptr } }

/-- `shell_IEnumShellItems::iter`
(src/shell/com_interfaces/ienumshellitems.rs:83-85). -/
def IEnumShellItems.iter (s : IEnumShellItems) : EnumShellItemsIter :=
  EnumShellItemsIter.new s.ptr

/-- `impl Iterator for EnumShellItemsIter`, `fn next`
(src/shell/com_interfaces/ienumshellitems.rs:133-145): unconditionally call
the wrapped handle's `Next` and repackage its result. -/
def EnumShellItemsIter.next (it : EnumShellItemsIter) (e : EnumWorld) :
    EnumWorld × Option (Except Nat Ptr) × List EnumEvent :=
  let r := it.array.Next e
  match r.2.1 with
  | .error err => (r.1, some (.error err), r.2.2)
  | .ok none => (r.1, none, r.2.2)
  | .ok (some p) => (r.1, some (.ok p), r.2.2)

/-- Scope-exit drop glue of `EnumShellItemsIter`: the struct declares no
`Drop` impl and its only field is wrapped in `ManuallyDrop`
(src/shell/com_interfaces/ienumshellitems.rs:129), which suppresses the
inner handle's release-on-drop, so dropping an iterator performs no foreign
call and changes no state. -/
def EnumShellItemsIter.dropGlue (_it : EnumShellItemsIter) (e : EnumWorld) :
    EnumWorld × List EnumEvent :=
  (e, [])

/-- Create an iterator from the owning enumerator handle and immediately
drop it, `n` times over, collecting all emitted events. -/
def mkDropIters (s : IEnumShellItems) : Nat → EnumWorld →
    EnumWorld × List EnumEvent
  | 0, e => (e, [])
  | n + 1, e =>
    let r := (s.iter).dropGlue e
    let r' := mkDropIters s n r.1
    (r'.1, r.2 ++ r'.2)

/-- A concrete foreign world used to evaluate the theorems on explicit
inputs: address 5 maps to a nine-slot table holding the function-pointer
identities 10..18, the foreign acquire and release functions are 11 and 12
(slots 1 and 2), every other foreign function returns the status code 0,
and the object's reference count starts at 1. -/
def wEx : World :=
  { mem := fun p =>
      if p = 5 then some { slots := [10, 11, 12, 13, 14, 15, 16, 17, 18] }
      else none
  , count := 1
  , addRefFn := 11
  , releaseFn := 12
  , ret := fun _ _ _ => 0 }

/-- A variant of `wEx` whose non-refcount foreign functions all return the
nonzero status code 7. -/
def wErr : World :=
  { wEx with ret := fun _ _ _ => 7 }

/-- A concrete scope body that ends in the error 3 while keeping the handle
and the world untouched, used to evaluate the scoped-acquisition theorem on
an error path. -/
def errBody : IUnknown → World →
    Except Nat Unit × IUnknown × World × List Event :=
  fun h w => (Except.error 3, h, w, [])

theorem World.invoke_mem (w : World) (pfun : Nat) (thisArg : Ptr)
    (args : List Nat) : ((w.invoke pfun thisArg args).1).mem = w.mem := by
  unfold World.invoke
  by_cases h1 : pfun = w.addRefFn <;> by_cases h2 : pfun = w.releaseFn <;>
    subst_vars <;> simp_all

/-- C1: for every handle whose stored pointer is the null sentinel, any
number of repeated `Release` calls each return the zero count, dispatch
nothing into the foreign table (the event trace is empty and the world is
untouched), and leave the handle unchanged. -/
theorem null_release_noop_idempotent (h : IUnknown) (hnull : h.vtbl = 0)
    (n : Nat) (w : World) :
    releaseTimes n h w = some (h, w, List.replicate n 0, []) := by
  induction n generalizing w with
  | zero => simp [releaseTimes]
  | succ n ih =>
    simp [releaseTimes, IUnknown.Release, hnull, ih, List.replicate]

/-- C1 witness: three `Release` calls on a null-sentinel handle in the
concrete world `wEx`. -/
theorem null_release_noop_idempotent_witness :
    releaseTimes 3 { vtbl := 0 } wEx =
      some ({ vtbl := 0 }, wEx, List.replicate 3 0, []) :=
  null_release_noop_idempotent { vtbl := 0 } rfl 3 wEx

/-- Any operation attempted on a null-sentinel handle in a world whose null
address is unmapped either faults with no effect (`none`) or — for
`Release` only — is the documented no-op. -/
theorem stepOp_null (op : Op) (w : World) (hm : w.mem 0 = none) :
    stepOp op { vtbl := 0 } w = none ∨
      stepOp op { vtbl := 0 } w = some ({ vtbl := 0 }, w, []) := by
  cases op <;>
    simp [stepOp, IUnknown.AddRef, IUnknown.Release,
      ITaskbarList.SetActiveAlt, ITaskbarList2.MarkFullscreenWindow,
      IUnknown.ppv, hm]

/-- Any operation sequence started from a null-sentinel handle that runs to
completion leaves the handle null, the world untouched, and dispatches
nothing into the foreign table. -/
theorem runOps_null (ops : List Op) :
    ∀ (w : World), w.mem 0 = none →
      ∀ (h' : IUnknown) (w' : World) (evs : List Event),
        runOps ops { vtbl := 0 } w = some (h', w', evs) →
        h' = { vtbl := 0 } ∧ w' = w ∧ evs = [] := by
  induction ops with
  | nil =>
    intro w hm h' w' evs hrun
    simp only [runOps, Option.some.injEq, Prod.mk.injEq] at hrun
    exact ⟨hrun.1.symm, hrun.2.1.symm, hrun.2.2.symm⟩
  | cons op ops ih =>
    intro w hm h' w' evs hrun
    simp only [runOps] at hrun
    rcases stepOp_null op w hm with hnone | hsome
    · rw [hnone] at hrun
      exact absurd hrun (by simp)
    · rw [hsome] at hrun
      simp only at hrun
      rcases hr : runOps ops { vtbl := 0 } w with _ | ⟨h2, w2, evs2⟩
      · rw [hr] at hrun
        exact absurd hrun (by simp)
      · rw [hr] at hrun
        obtain ⟨hh2, hw2, hevs2⟩ := ih w hm h2 w2 evs2 hr
        simp only [Option.some.injEq, Prod.mk.injEq] at hrun
        subst hh2 hw2 hevs2
        exact ⟨hrun.1.symm, hrun.2.1.symm, hrun.2.2.symm⟩

/-- C2: invalidation is monotonic and irreversible.  (i) On a live handle
with a mapped table, `Release` dispatches exactly once into the table's
release slot with the stored pointer, and overwrites the stored pointer
with the null sentinel exactly when the foreign call returns a
post-decrement count of zero.  (ii) Once the stored pointer is the null
sentinel (the null address being unmapped), no operation sequence that runs
to completion ever restores a non-null pointer, changes the world, or
dispatches anything into the foreign table. -/
theorem release_invalidation_monotonic :
    (∀ (h : IUnknown) (w : World) (vt : VTable) (pfun : Nat),
      h.vtbl ≠ 0 →
      w.mem h.vtbl = some vt →
      vt.slots[releaseSlot]? = some pfun →
      h.Release w =
        some (if (w.invoke pfun h.vtbl []).2 = 0 then { vtbl := 0 } else h,
          (w.invoke pfun h.vtbl []).2, (w.invoke pfun h.vtbl []).1,
          [Event.call pfun h.vtbl []]) ∧
      ((if (w.invoke pfun h.vtbl []).2 = 0 then ({ vtbl := 0 } : IUnknown)
          else h).vtbl = 0 ↔
        (w.invoke pfun h.vtbl []).2 = 0)) ∧
    (∀ (ops : List Op) (w : World), w.mem 0 = none →
      ∀ (h' : IUnknown) (w' : World) (evs : List Event),
        runOps ops { vtbl := 0 } w = some (h', w', evs) →
        h' = { vtbl := 0 } ∧ w' = w ∧ evs = []) := by
  constructor
  · intro h w vt pfun hnz hm hs
    constructor
    · simp [IUnknown.Release, hnz, hm, hs]
    · by_cases hrc : (w.invoke pfun h.vtbl []).2 = 0 <;> simp [hrc, hnz]
  · exact fun ops w hm => runOps_null ops w hm

/-- C2 witness: a live handle at address 5 in `wEx` (count 1, so the
foreign release returns 0 and the pointer is nulled), and a concrete
operation sequence from the null handle. -/
theorem release_invalidation_monotonic_witness :
    (IUnknown.Release { vtbl := 5 } wEx =
      some (if (wEx.invoke 12 5 []).2 = 0 then { vtbl := 0 } else { vtbl := 5 },
        (wEx.invoke 12 5 []).2, (wEx.invoke 12 5 []).1,
        [Event.call 12 5 []]) ∧
      ((if (wEx.invoke 12 5 []).2 = 0 then ({ vtbl := 0 } : IUnknown)
          else { vtbl := 5 }).vtbl = 0 ↔ (wEx.invoke 12 5 []).2 = 0)) ∧
    (∀ (h' : IUnknown) (w' : World) (evs : List Event),
      runOps [Op.release, Op.release] { vtbl := 0 } wEx =
          some (h', w', evs) →
        h' = { vtbl := 0 } ∧ w' = wEx ∧ evs = []) :=
  ⟨release_invalidation_monotonic.1 { vtbl := 5 } wEx
      { slots := [10, 11, 12, 13, 14, 15, 16, 17, 18] } 12
      (by decide) (by decide) (by decide),
    fun h' w' evs hrun =>
      release_invalidation_monotonic.2 [Op.release, Op.release] wEx
        (by decide) h' w' evs hrun⟩

/-- C3: acquire/release pairing scenario.  From a valid foreign pointer
with initial foreign count 1, `AddRef` raises the count to 2 (dispatching
the acquire slot), the first `Release` returns 1 and keeps the handle, the
second `Release` returns 0 and overwrites the stored pointer with the null
sentinel, and afterwards every typed operation other than the no-op
`Release` is rejected locally — the null dereference faults with no result
and nothing is forwarded into the foreign table. -/
theorem acquire_release_scenario
    (ppv : Ptr) (w : World) (vt : VTable)
    (hppv : ppv ≠ 0)
    (hm : w.mem ppv = some vt)
    (ha : vt.slots[addRefSlot]? = some w.addRefFn)
    (hr : vt.slots[releaseSlot]? = some w.releaseFn)
    (hne : w.addRefFn ≠ w.releaseFn)
    (hcount : w.count = 1)
    (hnull : w.mem 0 = none) :
    (IUnknown.fromPpv ppv).AddRef w =
      some (IUnknown.fromPpv ppv, 2, { w with count := 2 },
        [Event.call w.addRefFn ppv []]) ∧
    (IUnknown.fromPpv ppv).Release { w with count := 2 } =
      some (IUnknown.fromPpv ppv, 1, { w with count := 1 },
        [Event.call w.releaseFn ppv []]) ∧
    (IUnknown.fromPpv ppv).Release { w with count := 1 } =
      some ({ vtbl := 0 }, 0, { w with count := 0 },
        [Event.call w.releaseFn ppv []]) ∧
    (∀ op : Op, op ≠ Op.release →
      stepOp op { vtbl := 0 } { w with count := 0 } = none) := by
  have hne' : w.releaseFn ≠ w.addRefFn := Ne.symm hne
  refine ⟨?_, ?_, ?_, ?_⟩
  · simp [IUnknown.AddRef, IUnknown.fromPpv, hm, ha, World.invoke, hcount]
  · simp [IUnknown.Release, IUnknown.fromPpv, hppv, hm, hr, World.invoke,
      hne']
  · simp [IUnknown.Release, IUnknown.fromPpv, hppv, hm, hr, World.invoke,
      hne']
  · intro op hop
    cases op with
    | addRef =>
      simp [stepOp, IUnknown.AddRef, hnull]
    | release => exact absurd rfl hop
    | setActiveAlt hwnd =>
      simp [stepOp, ITaskbarList.SetActiveAlt, IUnknown.ppv, hnull]
    | markFullscreenWindow hwnd fFullscreen =>
      simp [stepOp, ITaskbarList2.MarkFullscreenWindow, IUnknown.ppv, hnull]

/-- C3 witness: the scenario run in the concrete world `wEx` from the
valid address 5. -/
theorem acquire_release_scenario_witness :
    (IUnknown.fromPpv 5).AddRef wEx =
      some (IUnknown.fromPpv 5, 2, { wEx with count := 2 },
        [Event.call 11 5 []]) ∧
    (IUnknown.fromPpv 5).Release { wEx with count := 2 } =
      some (IUnknown.fromPpv 5, 1, { wEx with count := 1 },
        [Event.call 12 5 []]) ∧
    (IUnknown.fromPpv 5).Release { wEx with count := 1 } =
      some ({ vtbl := 0 }, 0, { wEx with count := 0 },
        [Event.call 12 5 []]) ∧
    (∀ op : Op, op ≠ Op.release →
      stepOp op { vtbl := 0 } { wEx with count := 0 } = none) :=
  acquire_release_scenario 5 wEx
    { slots := [10, 11, 12, 13, 14, 15, 16, 17, 18] }
    (by decide) (by decide) (by decide) (by decide) (by decide) rfl
    (by decide)

/-- C4: status-code round-trip for the dispatched operation wrappers.  For
any status code the foreign call returns, `SetActiveAlt` and
`MarkFullscreenWindow` map the zero code to the success result and every
non-zero code to a typed error carrying that exact numeric code unchanged,
with exactly one foreign dispatch and nothing retried. -/
theorem status_code_roundtrip :
    (∀ (t : ITaskbarList) (w : World) (hwnd : Nat) (vt : VTable)
        (pfun : Nat),
      w.mem t.base.vtbl = some vt →
      vt.slots[setActiveAltSlot]? = some pfun →
      t.SetActiveAlt w hwnd =
        some (t,
          (if (w.invoke pfun t.base.vtbl [hwnd]).2 = 0 then Except.ok ()
            else Except.error { code := (w.invoke pfun t.base.vtbl [hwnd]).2 }),
          (w.invoke pfun t.base.vtbl [hwnd]).1,
          [Event.call pfun t.base.vtbl [hwnd]])) ∧
    (∀ (t : ITaskbarList2) (w : World) (hwnd : Nat) (fFullscreen : Bool)
        (vt : VTable) (pfun : Nat),
      w.mem t.iTaskbarList.base.vtbl = some vt →
      vt.slots[markFullscreenWindowSlot]? = some pfun →
      t.MarkFullscreenWindow w hwnd fFullscreen =
        some (t,
          (if (w.invoke pfun t.iTaskbarList.base.vtbl
                [hwnd, boolToU32 fFullscreen]).2 = 0 then Except.ok ()
            else Except.error { code := (w.invoke pfun t.iTaskbarList.base.vtbl
                [hwnd, boolToU32 fFullscreen]).2 }),
          (w.invoke pfun t.iTaskbarList.base.vtbl
            [hwnd, boolToU32 fFullscreen]).1,
          [Event.call pfun t.iTaskbarList.base.vtbl
            [hwnd, boolToU32 fFullscreen]])) := by
  constructor
  · intro t w hwnd vt pfun hm hs
    by_cases hc : (w.invoke pfun t.base.vtbl [hwnd]).2 = 0 <;>
      simp [ITaskbarList.SetActiveAlt, IUnknown.ppv, hm, hs, hc,
        ERROR.fromU32, ERROR.S_OK]
  · intro t w hwnd fFullscreen vt pfun hm hs
    by_cases hc : (w.invoke pfun t.iTaskbarList.base.vtbl
        [hwnd, boolToU32 fFullscreen]).2 = 0 <;>
      simp [ITaskbarList2.MarkFullscreenWindow, IUnknown.ppv, hm, hs, hc,
        ERROR.fromU32, ERROR.S_OK]

/-- C4 witness: in `wErr` every non-refcount foreign function returns the
code 7, so `SetActiveAlt` surfaces the typed error carrying 7; in `wEx`
they return 0, so `MarkFullscreenWindow` succeeds. -/
theorem status_code_roundtrip_witness :
    (ITaskbarList.fromPpv 5).SetActiveAlt wErr 40 =
      some (ITaskbarList.fromPpv 5,
        (if (wErr.invoke 17 5 [40]).2 = 0 then Except.ok ()
          else Except.error { code := (wErr.invoke 17 5 [40]).2 }),
        (wErr.invoke 17 5 [40]).1, [Event.call 17 5 [40]]) ∧
    (ITaskbarList2.fromPpv 5).MarkFullscreenWindow wEx 40 true =
      some (ITaskbarList2.fromPpv 5,
        (if (wEx.invoke 18 5 [40, boolToU32 true]).2 = 0 then Except.ok ()
          else Except.error { code := (wEx.invoke 18 5 [40, boolToU32 true]).2 }),
        (wEx.invoke 18 5 [40, boolToU32 true]).1,
        [Event.call 18 5 [40, boolToU32 true]]) :=
  ⟨status_code_roundtrip.1 (ITaskbarList.fromPpv 5) wErr 40
      { slots := [10, 11, 12, 13, 14, 15, 16, 17, 18] } 17
      (by decide) (by decide),
    status_code_roundtrip.2 (ITaskbarList2.fromPpv 5) wEx 40 true
      { slots := [10, 11, 12, 13, 14, 15, 16, 17, 18] } 18
      (by decide) (by decide)⟩

/-- C7: derived-table dispatch.  The derived operation's slot index equals
the base table's slot count (the appended slot immediately after the base
slots), construction of the derived handle keeps the raw pointer unchanged,
and invoking `MarkFullscreenWindow` dispatches exactly the function pointer
stored at that appended slot, passing the handle's original stored pointer
unchanged as the first argument. -/
theorem derived_table_dispatch :
    markFullscreenWindowSlot = itaskbarListSlotCount ∧
    (∀ (ppv : Ptr) (w : World) (hwnd : Nat) (fFullscreen : Bool)
        (vt : VTable) (pfun : Nat),
      w.mem ppv = some vt →
      vt.slots[markFullscreenWindowSlot]? = some pfun →
      (ITaskbarList2.fromPpv ppv).iTaskbarList.base.vtbl = ppv ∧
      (ITaskbarList2.fromPpv ppv).MarkFullscreenWindow w hwnd fFullscreen =
        some (ITaskbarList2.fromPpv ppv,
          (if (w.invoke pfun ppv [hwnd, boolToU32 fFullscreen]).2 = 0
            then Except.ok ()
            else Except.error
              { code := (w.invoke pfun ppv [hwnd, boolToU32 fFullscreen]).2 }),
          (w.invoke pfun ppv [hwnd, boolToU32 fFullscreen]).1,
          [Event.call pfun ppv [hwnd, boolToU32 fFullscreen]])) := by
  constructor
  · rfl
  · intro ppv w hwnd fFullscreen vt pfun hm hs
    refine ⟨rfl, ?_⟩
    by_cases hc : (w.invoke pfun ppv [hwnd, boolToU32 fFullscreen]).2 = 0 <;>
      simp [ITaskbarList2.MarkFullscreenWindow, ITaskbarList2.fromPpv,
        ITaskbarList.fromPpv, IUnknown.fromPpv, IUnknown.ppv, hm, hs, hc,
        ERROR.fromU32, ERROR.S_OK]

/-- C7 witness: in `wEx` the table at address 5 stores the function-pointer
identity 18 at the appended slot 8; the dispatch invokes exactly it, with
the original pointer 5 as first argument. -/
theorem derived_table_dispatch_witness :
    (ITaskbarList2.fromPpv 5).iTaskbarList.base.vtbl = 5 ∧
    (ITaskbarList2.fromPpv 5).MarkFullscreenWindow wEx 40 false =
      some (ITaskbarList2.fromPpv 5,
        (if (wEx.invoke 18 5 [40, boolToU32 false]).2 = 0 then Except.ok ()
          else Except.error
            { code := (wEx.invoke 18 5 [40, boolToU32 false]).2 }),
        (wEx.invoke 18 5 [40, boolToU32 false]).1,
        [Event.call 18 5 [40, boolToU32 false]]) :=
  derived_table_dispatch.2 5 wEx 40 false
    { slots := [10, 11, 12, 13, 14, 15, 16, 17, 18] } 18
    (by decide) (by decide)

/-- C5: scoped acquisition.  For every body — including bodies that end in
an error — running a handle's scope appends to the body's trace exactly the
effect of one `Release` of the final handle: when the final handle is live
with a mapped table, exactly one foreign release dispatch is appended (and,
when the dispatched pointer is the genuine foreign release function, the
foreign count decreases by exactly one); when the final handle is already
invalidated, the single `Release` call is the documented no-op and appends
nothing.  Never zero `Release` calls, never more than one. -/
theorem drop_releases_exactly_once {ε α : Type}
    (ppv : Ptr) (w : World)
    (body : IUnknown → World → Except ε α × IUnknown × World × List Event)
    (res : Except ε α) (h' : IUnknown) (w' : World) (evs : List Event)
    (hbody : body (IUnknown.fromPpv ppv) w = (res, h', w', evs)) :
    (∀ (vt : VTable) (pfun : Nat),
      h'.vtbl ≠ 0 →
      w'.mem h'.vtbl = some vt →
      vt.slots[releaseSlot]? = some pfun →
      withHandle ppv w body =
        some (res, (w'.invoke pfun h'.vtbl []).1,
          evs ++ [Event.call pfun h'.vtbl []]) ∧
      (pfun = w'.releaseFn → pfun ≠ w'.addRefFn →
        ((w'.invoke pfun h'.vtbl []).1).count = w'.count - 1)) ∧
    (h'.vtbl = 0 → withHandle ppv w body = some (res, w', evs)) := by
  constructor
  · intro vt pfun hnz hm hs
    constructor
    · simp [withHandle, IUnknown.dropGlue, IUnknown.Release, hbody, hnz,
        hm, hs]
    · intro hrel hnadd
      subst hrel
      simp [World.invoke, hnadd]
  · intro hz
    simp [withHandle, IUnknown.dropGlue, IUnknown.Release, hbody, hz]

/-- C5 witness: a body that ends in the error 3 while keeping the handle
live; scope exit still performs exactly one release dispatch, decrementing
the count of `wEx` from 1 to 0. -/
theorem drop_releases_exactly_once_witness :
    (withHandle 5 wEx errBody =
      some ((Except.error 3 : Except Nat Unit), (wEx.invoke 12 5 []).1,
        [] ++ [Event.call 12 5 []])) ∧
    ((wEx.invoke 12 5 []).1).count = wEx.count - 1 :=
  ⟨((drop_releases_exactly_once 5 wEx errBody (Except.error 3)
      (IUnknown.fromPpv 5) wEx [] rfl).1
      { slots := [10, 11, 12, 13, 14, 15, 16, 17, 18] } 12
      (by decide) (by decide) (by decide)).1,
    ((drop_releases_exactly_once 5 wEx errBody (Except.error 3)
      (IUnknown.fromPpv 5) wEx [] rfl).1
      { slots := [10, 11, 12, 13, 14, 15, 16, 17, 18] } 12
      (by decide) (by decide) (by decide)).2 rfl (by decide)⟩

/-- C8: construction from a raw pointer makes no foreign call — the world
passes through untouched and the event trace is empty — and stores the
pointer unchanged, so reading it back immediately yields the same value. -/
theorem construction_no_foreign_call (p : Ptr) (w : World) :
    IUnknown.fromPpvTraced p w = (IUnknown.fromPpv p, w, []) ∧
    (IUnknown.fromPpv p).vtbl = p ∧
    (IUnknown.fromPpv p).ppv = p :=
  ⟨rfl, rfl, rfl⟩

/-- C9: `AddRef` dispatches exactly the foreign table's second slot (index
1) with the stored pointer as the argument, returns the foreign function's
return value verbatim, and leaves the handle itself unchanged; with the
genuine foreign acquire function in that slot, the foreign count increases
by one while the memory is untouched. -/
theorem addref_dispatch_frame (h : IUnknown) (w : World) (vt : VTable)
    (pfun : Nat)
    (hm : w.mem h.vtbl = some vt)
    (hs : vt.slots[addRefSlot]? = some pfun) :
    addRefSlot = 1 ∧
    h.AddRef w =
      some (h, (w.invoke pfun h.vtbl []).2, (w.invoke pfun h.vtbl []).1,
        [Event.call pfun h.vtbl []]) ∧
    (pfun = w.addRefFn →
      (w.invoke pfun h.vtbl []).2 = w.count + 1 ∧
      ((w.invoke pfun h.vtbl []).1).count = w.count + 1 ∧
      ((w.invoke pfun h.vtbl []).1).mem = w.mem) := by
  refine ⟨rfl, ?_, ?_⟩
  · simp [IUnknown.AddRef, hm, hs]
  · intro hadd
    simp [World.invoke, hadd]

/-- C9 witness: `AddRef` at the live address 5 of `wEx` dispatches the
slot-1 pointer 11, returns the post-increment count 2 verbatim, and leaves
the handle unchanged. -/
theorem addref_dispatch_frame_witness :
    addRefSlot = 1 ∧
    IUnknown.AddRef { vtbl := 5 } wEx =
      some ({ vtbl := 5 }, (wEx.invoke 11 5 []).2, (wEx.invoke 11 5 []).1,
        [Event.call 11 5 []]) ∧
    ((wEx.invoke 11 5 []).2 = wEx.count + 1 ∧
      ((wEx.invoke 11 5 []).1).count = wEx.count + 1 ∧
      ((wEx.invoke 11 5 []).1).mem = wEx.mem) :=
  ⟨(addref_dispatch_frame { vtbl := 5 } wEx
      { slots := [10, 11, 12, 13, 14, 15, 16, 17, 18] } 11
      (by decide) (by decide)).1,
    (addref_dispatch_frame { vtbl := 5 } wEx
      { slots := [10, 11, 12, 13, 14, 15, 16, 17, 18] } 11
      (by decide) (by decide)).2.1,
    (addref_dispatch_frame { vtbl := 5 } wEx
      { slots := [10, 11, 12, 13, 14, 15, 16, 17, 18] } 11
      (by decide) (by decide)).2.2 rfl⟩

/-- C6 counterexample: with an exhausted foreign enumerator, the first
iterator call receives the no-item-found sentinel and yields the empty
value, leaving the state unchanged — yet the subsequent iteration call on
that very state emits a foreign dispatch event again, so it does not happen
"without a further foreign dispatch attempt". -/
theorem enum_iter_redispatch_counterexample :
    EnumShellItemsIter.next (IEnumShellItems.iter { ptr := 5 })
        { script := [], count := 1 } =
      ({ script := [], count := 1 }, none, [EnumEvent.nextCall 5]) ∧
    (EnumShellItemsIter.next (IEnumShellItems.iter { ptr := 5 })
        { script := [], count := 1 }).2.2 = [EnumEvent.nextCall 5] ∧
    [EnumEvent.nextCall 5] ≠ ([] : List EnumEvent) := by
  refine ⟨rfl, rfl, ?_⟩
  decide

/-- C6 (amended): when the foreign call reports the documented no-item-found
sentinel, `Next` yields the empty value, not an error, and a subsequent
iteration call terminates cleanly with an empty result — but it performs
exactly one further foreign dispatch, since the iterator re-invokes the
foreign `Next` on every call; every other non-zero status is surfaced as a
typed error carrying that exact code. -/
theorem enum_next_sentinel_amended (s : IEnumShellItems) (e : EnumWorld) :
    (e.script = [] →
      s.Next e = (e, Except.ok none, [EnumEvent.nextCall s.ptr]) ∧
      (s.iter).next e = (e, none, [EnumEvent.nextCall s.ptr])) ∧
    (∀ (code : Nat) (rest : List NextOutcome),
      e.script = NextOutcome.fail code :: rest →
      code ≠ 0 → code ≠ HRESULT_S_FALSE →
      s.Next e = ({ script := rest, count := e.count },
        Except.error code, [EnumEvent.nextCall s.ptr])) := by
  obtain ⟨script, c⟩ := e
  constructor
  · intro hs
    simp only at hs
    subst hs
    constructor
    · simp [IEnumShellItems.Next, foreignNext, ok_to_hrresult,
        HRESULT_S_FALSE]
    · simp [EnumShellItemsIter.next, IEnumShellItems.iter,
        EnumShellItemsIter.new, IEnumShellItems.Next, foreignNext,
        ok_to_hrresult, HRESULT_S_FALSE]
  · intro code rest hs hc0 hc1
    simp only at hs
    subst hs
    simp only [HRESULT_S_FALSE] at hc1
    simp [IEnumShellItems.Next, foreignNext, ok_to_hrresult,
      HRESULT_S_FALSE, hc0, hc1]

/-- C6 witness: the amended statement evaluated on an exhausted enumerator
(sentinel path) and on an enumerator whose next outcome fails with the
status code 7 (typed-error path). -/
theorem enum_next_sentinel_amended_witness :
    (IEnumShellItems.Next { ptr := 5 } { script := [], count := 1 } =
      ({ script := [], count := 1 }, Except.ok none,
        [EnumEvent.nextCall 5]) ∧
      EnumShellItemsIter.next (IEnumShellItems.iter { ptr := 5 })
          { script := [], count := 1 } =
        ({ script := [], count := 1 }, none, [EnumEvent.nextCall 5])) ∧
    IEnumShellItems.Next { ptr := 5 }
        { script := [NextOutcome.fail 7], count := 1 } =
      ({ script := [], count := 1 }, Except.error 7,
        [EnumEvent.nextCall 5]) :=
  ⟨(enum_next_sentinel_amended { ptr := 5 } { script := [], count := 1 }).1
      rfl,
    (enum_next_sentinel_amended { ptr := 5 }
      { script := [NextOutcome.fail 7], count := 1 }).2 7 [] rfl
      (by decide) (by decide)⟩

/-- C10: the iterator returned by `iter` wraps the very same enumerator
handle, and — its field being `ManuallyDrop` with no `Drop` impl of its own
— creating and discarding any number of iterators emits no foreign call and
leaves the foreign state (the reference count included) and the owner's
handle untouched. -/
theorem iter_drop_no_release (s : IEnumShellItems) (n : Nat)
    (e : EnumWorld) :
    (s.iter).array = s ∧
    (s.iter).dropGlue e = (e, []) ∧
    mkDropIters s n e = (e, []) ∧
    (mkDropIters s n e).1.count = e.count := by
  refine ⟨rfl, rfl, ?_, ?_⟩
  · induction n with
    | zero => rfl
    | succ n ih =>
      simp [mkDropIters, EnumShellItemsIter.dropGlue, ih]
  · induction n with
    | zero => rfl
    | succ n ih =>
      simp [mkDropIters, EnumShellItemsIter.dropGlue] at ih ⊢
      simp [ih]
